import Mathlib

/-!
Verification of the graph-operations core of the kinetic_project repository.

The Python modules graph_dimen_type_val.py, deg_ops.py and graph_ops.py are
embedded shallowly:

* raw numpy arrays (whose shapes can be wrong) are modelled as
  `List (List Nat)` together with the numpy shape function `pyshape`
  (for a rectangular 2-d array numpy reports `(len A, len (head A))`);
* validated square matrices are modelled as functions `Fin n → Fin n → Nat`
  and active-vertex column vectors of shape `(n, 1)` as `Fin n → Nat`;
  shape validation errors are impossible at this layer by typing, so the
  call `dimen_type_val(A, verts)` that opens every graph_ops function
  reduces to defaulting an omitted verts argument to the all-ones vector;
* Python exceptions are modelled with `Except String`.

Machine integers do not occur: the adjacency matrices hold nonnegative
edge multiplicities, which numpy stores exactly for the sizes involved,
so `Nat` is the faithful carrier.
-/

namespace Kinetic

/-! ## Raw layer: numpy shapes and dimen_type_val (graph_dimen_type_val.py) -/

/-- Numpy shape of a rectangular 2-d array held as a list of rows:
`(number of rows, length of the first row)`. -/
def pyshape (A : List (List Nat)) : Nat × Nat :=
  (A.length, (A.head?.getD []).length)

/-- Embedding of `graph_dimen_type_val` (graph_dimen_type_val.py lines 50-80),
restricted to the matrix branch (a networkx graph input is first converted to
its adjacency matrix, which is out of scope for the claims): unpack the shape,
demand squareness, return the matrix with its dimension. -/
def graph_dimen_type_val (A : List (List Nat)) :
    Except String (List (List Nat) × Nat) :=
  if (pyshape A).1 = (pyshape A).2 then .ok (A, (pyshape A).1)
  else .error ("The dimensions do not match.")

/-- Embedding of `dimen_type_val` (graph_dimen_type_val.py lines 14-47):
validate the matrix, then synthesize an all-ones `(dim, 1)` column vector
when verts is omitted, or demand shape `(dim, 1)` of a supplied verts. -/
def dimen_type_val (G : List (List Nat)) (verts : Option (List (List Nat))) :
    Except String (List (List Nat) × List (List Nat)) :=
  match graph_dimen_type_val G with
  | .error e => .error e
  | .ok (A, dim) =>
    match verts with
    | none => .ok (A, List.replicate dim [1])
    | some vs =>
      if pyshape vs = (dim, 1) then .ok (A, vs)
      else .error ("verts shape is not (dim, 1).")

/-! ## Typed layer: matrices, vectors, degree calculator (deg_ops.py) -/

/-- A validated square adjacency matrix: entry `(i, j)` is the number of
directed edges from vertex `i` to vertex `j`. -/
abbrev MatN (n : Nat) := Fin n → Fin n → Nat

/-- A validated active-vertices column vector of shape `(n, 1)`. -/
abbrev VecN (n : Nat) := Fin n → Nat

/-- The all-ones vector `numpy.ones((n, 1))`. -/
def onesVec (n : Nat) : VecN n := fun _ => 1

/-- The all-zero matrix `numpy.zeros((n, n))`. -/
def zerosMat (n : Nat) : MatN n := fun _ _ => 0

/-- The all-zero vector `numpy.zeros((n, 1))`. -/
def zerosVec (n : Nat) : VecN n := fun _ => 0

/-- Total edge count `sum(sum(A))` of an adjacency matrix. -/
def matSum {n : Nat} (A : MatN n) : Nat := ∑ i, ∑ j, A i j

/-- The matrix-vector product `numpy.matmul(A, verts)` flattened to a
column vector. -/
def matVecMul {n : Nat} (A : MatN n) (w : VecN n) : VecN n :=
  fun i => ∑ j, A i j * w j

/-- The product `numpy.matmul(verts.transpose(), A).transpose()` flattened
to a column vector. -/
def vecMatMul {n : Nat} (w : VecN n) (A : MatN n) : VecN n :=
  fun j => ∑ i, w i * A i j

/-- The enum `AllowedDegs` of deg_ops.py. -/
inductive AllowedDegs
  | IN
  | OUT
deriving DecidableEq

/-- The runtime value passed for the `in_or_out` parameter of
`in_or_out_deg`: Python is dynamically typed, so besides the two members of
`AllowedDegs` a caller can pass any other value; `notMember` stands for every
value outside the enum, which the membership test `in_or_out not in
AllowedDegs` rejects. -/
inductive DegArg
  | mem : AllowedDegs → DegArg
  | notMember : DegArg

/-- The degree computation selected by a valid mode (deg_ops.py lines 47-49):
`IN` gives `numpy.matmul(A, verts)`, `OUT` gives
`numpy.matmul(verts.transpose(), A).transpose()`. -/
def deg_val {n : Nat} (A : MatN n) (m : AllowedDegs) (w : VecN n) : VecN n :=
  match m with
  | .IN => matVecMul A w
  | .OUT => vecMatMul w A

/-- Embedding of `in_or_out_deg` (deg_ops.py lines 20-49): default the verts
vector to all ones, reject a mode value outside `AllowedDegs` with a
ValueError, otherwise compute the selected degree vector. -/
def in_or_out_deg {n : Nat} (A : MatN n) (arg : DegArg) (w : Option (VecN n)) :
    Except String (VecN n) :=
  match arg with
  | .notMember => .error ("is not in AllowedDegs.")
  | .mem m => .ok (deg_val A m (w.getD (onesVec n)))

/-- Embedding of `in_deg` (deg_ops.py lines 52-71): `in_or_out_deg` at mode
`IN`, which always succeeds. -/
def in_deg {n : Nat} (A : MatN n) (w : Option (VecN n)) : VecN n :=
  deg_val A .IN (w.getD (onesVec n))

/-- Embedding of `out_deg` (deg_ops.py lines 74-93): `in_or_out_deg` at mode
`OUT`, which always succeeds. -/
def out_deg {n : Nat} (A : MatN n) (w : Option (VecN n)) : VecN n :=
  deg_val A .OUT (w.getD (onesVec n))

/-! ## Sink/Source Reducer (graph_ops.py lines 110-223) -/

/-- Elementwise `numpy.logical_and(a, b).astype(int)` on column vectors:
an entry is 1 when both inputs are nonzero, else 0. -/
def logical_and {n : Nat} (a b : VecN n) : VecN n :=
  fun i => if a i ≠ 0 ∧ b i ≠ 0 then 1 else 0

/-- The active-vertex recomputation of one reducer pass
(graph_ops.py lines 148-149):
`verts = logical_and(verts, in_deg(A)).astype(int)` followed by
`verts = logical_and(verts, out_deg(A)).astype(int)`; note both degree
calls omit the verts argument, so they use the all-ones default. -/
def sink_source_pass {n : Nat} (A : MatN n) (verts : VecN n) : VecN n :=
  logical_and (logical_and verts (in_deg A none)) (out_deg A none)

/-- The pass recomputation as claim C4 words it: both degrees computed by
the Degree Calculator weighted by the current ActiveVertices vector. -/
def sink_source_pass_claimed {n : Nat} (A : MatN n) (verts : VecN n) : VecN n :=
  logical_and (logical_and verts (in_deg A (some verts))) (out_deg A (some verts))

/-- Embedding of `validate_vertices` (graph_ops.py lines 161-191): with no
required vertices the state is valid; a single required index `v` is wrapped
by the code into `[v]`, so the list argument subsumes it; otherwise the state
is valid exactly when no required vertex is inactive. -/
def validate_vertices {n : Nat} (active_verts : VecN n)
    (v : Option (List (Fin n))) : Bool :=
  match v with
  | none => true
  | some vs => !(vs.any fun vert => active_verts vert == 0)

/-- Embedding of `zero_rows_and_cols` (graph_ops.py lines 194-223): clear
row `i` and column `i` of the matrix for every index `i` where the vector
is zero. -/
def zero_rows_and_cols {n : Nat} (mat : MatN n) (vec : VecN n) : MatN n :=
  fun i j => if vec i = 0 ∨ vec j = 0 then 0 else mat i j

def zero_rows_and_cols_le {n : Nat} (mat : MatN n) (vec : VecN n)
    (i j : Fin n) : zero_rows_and_cols mat vec i j ≤ mat i j := by
  unfold zero_rows_and_cols
  split <;> omega

/-- Zeroing rows and columns can only shrink the total edge count, and it
shrinks it strictly whenever it changes the matrix at all. -/
def matSum_zero_rows_lt {n : Nat} (mat : MatN n) (vec : VecN n)
    (h : zero_rows_and_cols mat vec ≠ mat) :
    matSum (zero_rows_and_cols mat vec) < matSum mat := by
  obtain ⟨i, hi⟩ := Function.ne_iff.mp h
  obtain ⟨j, hj⟩ := Function.ne_iff.mp hi
  unfold matSum
  refine Finset.sum_lt_sum (fun a _ => Finset.sum_le_sum
    (fun b _ => zero_rows_and_cols_le mat vec a b)) ⟨i, Finset.mem_univ i, ?_⟩
  refine Finset.sum_lt_sum (fun b _ => zero_rows_and_cols_le mat vec i b)
    ⟨j, Finset.mem_univ j, lt_of_le_of_ne (zero_rows_and_cols_le mat vec i j) hj⟩

/-- Fuel-indexed embedding of `validate_graph_sink_source_condition`
(graph_ops.py lines 110-158).  The body follows the source line by line:
`dimen_type_val` reduces at this layer to defaulting an omitted verts to all
ones; then the two degree passes, the zeroing, the required-vertices check
returning the all-zero sentinel state, the fixed-point test
`numpy.array_equal(A_new, A)`, and the tail call.  The fuel argument carries
a proof that it bounds the total edge count; since a changed matrix strictly
shrinks the edge count the zero-fuel recursive branch is unreachable, so the
fuel is a recursion bound and not a semantic change.  Structural recursion on
the fuel keeps the function definitionally computable. -/
def vgssc_aux {n : Nat} : (fuel : Nat) → (A : MatN n) →
    (verts : Option (VecN n)) → (v : Option (List (Fin n))) →
    matSum A ≤ fuel → MatN n × VecN n
  | fuel, A, verts, v, h =>
    if validate_vertices (sink_source_pass A (verts.getD (onesVec n))) v
        = false then
      (zerosMat n, zerosVec n)
    else if hA : zero_rows_and_cols A (sink_source_pass A (verts.getD (onesVec n)))
        = A then
      (zero_rows_and_cols A (sink_source_pass A (verts.getD (onesVec n))),
        sink_source_pass A (verts.getD (onesVec n)))
    else
      match fuel, h with
      | 0, h =>
        absurd (Nat.lt_of_lt_of_le
            (matSum_zero_rows_lt A (sink_source_pass A (verts.getD (onesVec n))) hA)
            h)
          (Nat.not_lt_zero _)
      | fuel' + 1, h =>
        vgssc_aux fuel'
          (zero_rows_and_cols A (sink_source_pass A (verts.getD (onesVec n))))
          (some (sink_source_pass A (verts.getD (onesVec n)))) v
          (Nat.lt_succ_iff.mp (Nat.lt_of_lt_of_le
            (matSum_zero_rows_lt A (sink_source_pass A (verts.getD (onesVec n))) hA)
            h))

/-- Embedding of `validate_graph_sink_source_condition`
(graph_ops.py lines 110-158): run the fuel-indexed body with fuel equal to
the total edge count, which always suffices. -/
def validate_graph_sink_source_condition {n : Nat} (A : MatN n)
    (verts : Option (VecN n)) (v : Option (List (Fin n))) : MatN n × VecN n :=
  vgssc_aux (matSum A) A verts v (Nat.le_refl _)

/-! ## The repeated pass as a step function, for the termination claim -/

/-- One full pass of the reducer loop (graph_ops.py lines 148-150): recompute
the active vector, then zero the matching rows and columns.  The recursion in
`validate_graph_sink_source_condition` repeats exactly this step until the
matrix stops changing. -/
def reducer_pass {n : Nat} (s : MatN n × VecN n) : MatN n × VecN n :=
  (zero_rows_and_cols s.1 (sink_source_pass s.1 s.2), sink_source_pass s.1 s.2)

/-- Number of active (nonzero) entries of an active-vertices vector. -/
def active_count {n : Nat} (w : VecN n) : Nat :=
  (Finset.univ.filter fun i => w i ≠ 0).card

/-! ## Subgraph Pruner (graph_ops.py lines 82-107) -/

/-- The ascending list of active vertex indices,
`numpy.nonzero(verts)[0]`. -/
def active_indices {n : Nat} (verts : VecN n) : List (Fin n) :=
  (List.finRange n).filter fun i => verts i != 0

/-- Embedding of `prune_graph` (graph_ops.py lines 82-107): the product
`active_eye.T @ A @ active_eye` with the 0/1 selection matrix `active_eye`
picks out exactly the submatrix of `A` on the active indices, and the second
component is the list of the original indices of the active vertices. -/
def prune_graph {n : Nat} (A : MatN n) (verts : VecN n) :
    List (List Nat) × List Nat :=
  ((active_indices verts).map fun a => (active_indices verts).map fun b => A a b,
    (active_indices verts).map Fin.val)

/-! ## Subgraph Enumerator (graph_ops.py lines 11-79) -/

deriving instance DecidableEq for Except

/-- The result type of the enumerator embedding: the collected subgraphs
paired with the threaded memo-key list. -/
abbrev EnumResult := List (List (List Nat) × List Nat) × List (List (List Nat) × List (List Nat))

instance instDecEqEnumResult : DecidableEq EnumResult :=
  instDecidableEqProd

/-- The child state matrix built by the branching step (graph_ops.py lines
71-72): `this_A = A.copy(); this_A[i, j] = 0` sets the single entry at the
chosen edge position to zero. -/
def child_matrix {n : Nat} (A : MatN n) (i j : Fin n) : MatN n :=
  fun a b => if a = i ∧ b = j then 0 else A a b

/-- The child state matrix as claim C1 words the branching step: the entry at
the chosen edge position is decremented by one multiplicity only. -/
def child_matrix_claimed {n : Nat} (A : MatN n) (i j : Fin n) : MatN n :=
  fun a b => if a = i ∧ b = j then A a b - 1 else A a b

/-- The row-major list of positions with a nonzero entry,
`numpy.argwhere(A)`. -/
def argwhere {n : Nat} (A : MatN n) : List (Fin n × Fin n) :=
  (List.finRange n).flatMap fun i =>
    ((List.finRange n).filter fun j => A i j != 0).map fun j => (i, j)

/-- The serialized contents of the memo key: the list of matrix rows paired
with the list of the one-element rows of the column vector. -/
abbrev StateKey := List (List Nat) × List (List Nat)

def matrix_rows {n : Nat} (A : MatN n) : List (List Nat) :=
  (List.finRange n).map fun i => (List.finRange n).map fun j => A i j

def verts_rows {n : Nat} (w : VecN n) : List (List Nat) :=
  (List.finRange n).map fun i => [w i]

/-- The memo key computation and lookup at graph_ops.py line 60: the walrus
assignment of the pair of tuples of the rows of A and of verts to the name
key, followed by the dict membership test.  A Python dict membership
test hashes the key.  `tuple(A)` is the tuple of the rows of the 2-d numpy
array `A`, and the rows are numpy arrays, which are unhashable (the class
sets its hash slot to None because array equality returns an array), so for
every matrix with at least one row the lookup raises a TypeError before
anything else happens.  Only in the degenerate 0-dimensional case is the key
the hashable pair of empty tuples. -/
def memo_key {n : Nat} (A : MatN n) (w : VecN n) : Except String StateKey :=
  if n = 0 then .ok (matrix_rows A, verts_rows w)
  else .error ("TypeError: unhashable type numpy.ndarray")

/-- Fuel-indexed embedding of `iterate_subgraphs` (graph_ops.py lines 11-79),
following the source line by line: normalize the inputs (at this typed layer
`dimen_type_val` only checks shapes, so nothing remains of line 51), default
the hashmap and the edge bound `k = sum(sum(A)) + 1`, run the reducer on the
matrix alone — line 57 passes only `A` and `v`, not the caller-supplied
verts —, compute and look up the memo key (which is where Python raises, see
`memo_key`), record the pruned state when `1 < sum(sum(A)) < k`, and branch
on every nonzero position, threading the hashmap through the loop exactly as
the shared mutable dict does.  Each recursive call strictly decreases the
total edge count, so the fuel `matSum G + 1` supplied by the wrapper can
never run out; the fuel only makes the recursion structural. -/
def iterate_subgraphs_fuel {n : Nat} : Nat → MatN n → Option (VecN n) →
    Option Nat → Option (List (Fin n)) → Option (List StateKey) →
    Except String (List (List (List Nat) × List Nat) × List StateKey)
  | 0, _, _, _, _, _ => .error ("recursion bound exhausted")
  | fuel + 1, G, _verts, k, v, hashmap =>
    let hm := hashmap.getD []
    let kk := k.getD (matSum G + 1)
    let red := validate_graph_sink_source_condition G none v
    match memo_key red.1 red.2 with
    | .error e => .error e
    | .ok key =>
      if key ∈ hm then .ok ([], hm)
      else
        let hm2 := key :: hm
        let base :=
          if 1 < matSum red.1 ∧ matSum red.1 < kk then [prune_graph red.1 red.2]
          else []
        (argwhere red.1).foldlM
          (fun st ij =>
            let child := validate_graph_sink_source_condition
              (child_matrix red.1 ij.1 ij.2) (some red.2) v
            match iterate_subgraphs_fuel fuel child.1 (some child.2) (some kk) v
                (some st.2) with
            | .error e => .error e
            | .ok (res, hm3) => .ok (st.1 ++ res, hm3))
          (base, hm2)

/-- Embedding of `iterate_subgraphs` (graph_ops.py lines 11-79): the
fuel-indexed body at the always-sufficient recursion bound. -/
def iterate_subgraphs {n : Nat} (G : MatN n) (verts : Option (VecN n))
    (k : Option Nat) (v : Option (List (Fin n)))
    (hashmap : Option (List StateKey)) :
    Except String (List (List (List Nat) × List Nat) × List StateKey) :=
  iterate_subgraphs_fuel (matSum G + 1) G verts k v hashmap


/-! ## Theorems: component facts -/

/-- Computation of the validator on a non-square matrix. -/
theorem dimen_type_val_nonsquare (A : List (List Nat))
    (w : Option (List (List Nat))) (h : (pyshape A).1 ≠ (pyshape A).2) :
    dimen_type_val A w = .error ("The dimensions do not match.") := by
  unfold dimen_type_val graph_dimen_type_val
  rw [if_neg h]

/-- Computation of the validator on a square matrix with verts omitted. -/
theorem dimen_type_val_none (A : List (List Nat))
    (h : (pyshape A).1 = (pyshape A).2) :
    dimen_type_val A none = .ok (A, List.replicate (pyshape A).1 [1]) := by
  unfold dimen_type_val graph_dimen_type_val
  rw [if_pos h]

/-- Computation of the validator on a square matrix with verts supplied. -/
theorem dimen_type_val_some (A vs : List (List Nat))
    (h : (pyshape A).1 = (pyshape A).2) :
    dimen_type_val A (some vs) =
      if pyshape vs = ((pyshape A).1, 1) then .ok (A, vs)
      else .error ("verts shape is not (dim, 1).") := by
  unfold dimen_type_val graph_dimen_type_val
  rw [if_pos h]

theorem in_or_out_deg_in_eq {n : Nat} (A : MatN n) (w : Option (VecN n)) :
    in_or_out_deg A (.mem .IN) w = .ok (in_deg A w) := rfl

theorem in_or_out_deg_out_eq {n : Nat} (A : MatN n) (w : Option (VecN n)) :
    in_or_out_deg A (.mem .OUT) w = .ok (out_deg A w) := rfl

/-! ## Basic lemmas about one reducer pass -/

/-- One pass marks a vertex active exactly when it was active and both its
unweighted in-degree and out-degree are nonzero. -/
theorem sink_source_pass_eq_ite {n : Nat} (A : MatN n) (w : VecN n) (i : Fin n) :
    sink_source_pass A w i =
      if w i ≠ 0 ∧ in_deg A none i ≠ 0 ∧ out_deg A none i ≠ 0 then 1 else 0 := by
  unfold sink_source_pass logical_and
  split_ifs <;> simp_all

/-- One pass never raises the activity value of a vertex. -/
theorem sink_source_pass_le {n : Nat} (A : MatN n) (w : VecN n) (i : Fin n) :
    sink_source_pass A w i ≤ w i := by
  rw [sink_source_pass_eq_ite]
  split_ifs with hc
  · exact Nat.one_le_iff_ne_zero.mpr hc.1
  · exact Nat.zero_le _

/-- Recomputing the pass on its own output changes nothing. -/
theorem sink_source_pass_idem {n : Nat} (A : MatN n) (w : VecN n) :
    sink_source_pass A (sink_source_pass A w) = sink_source_pass A w := by
  funext i
  simp only [sink_source_pass_eq_ite]
  split_ifs <;> simp_all

/-- A pass over the all-zero vector yields the all-zero vector. -/
theorem sink_source_pass_zeros {n : Nat} (A : MatN n) :
    sink_source_pass A (zerosVec n) = zerosVec n := by
  funext i
  rw [sink_source_pass_eq_ite, if_neg]
  · rfl
  · intro hcontra
    exact hcontra.1 rfl

theorem zero_rows_and_cols_zeros {n : Nat} (vec : VecN n) :
    zero_rows_and_cols (zerosMat n) vec = zerosMat n := by
  funext i j
  unfold zero_rows_and_cols zerosMat
  split <;> rfl

/-! ## The output characterization of the reducer -/

/-- Every state the fuel-indexed reducer returns is stable: its vector is a
fixed point of the recomputation pass, zeroing changes nothing, the
required-vertices check passed unless the all-zero sentinel was returned,
and the output vector is pointwise at most the input vector. -/
theorem vgssc_aux_char {n : Nat} :
    ∀ (fuel : Nat) (A : MatN n) (w : Option (VecN n))
      (v : Option (List (Fin n))) (h : matSum A ≤ fuel),
      (vgssc_aux fuel A w v h).2
          = sink_source_pass (vgssc_aux fuel A w v h).1 (vgssc_aux fuel A w v h).2
      ∧ zero_rows_and_cols (vgssc_aux fuel A w v h).1 (vgssc_aux fuel A w v h).2
          = (vgssc_aux fuel A w v h).1
      ∧ (validate_vertices (vgssc_aux fuel A w v h).2 v = true
          ∨ vgssc_aux fuel A w v h = (zerosMat n, zerosVec n))
      ∧ ∀ i, (vgssc_aux fuel A w v h).2 i ≤ (w.getD (onesVec n)) i := by
  intro fuel
  induction fuel with
  | zero =>
    intro A w v h
    rw [vgssc_aux]
    by_cases hval :
        validate_vertices (sink_source_pass A (w.getD (onesVec n))) v = false
    · rw [if_pos hval]
      exact ⟨(sink_source_pass_zeros (zerosMat n)).symm,
        zero_rows_and_cols_zeros (zerosVec n), Or.inr rfl,
        fun i => Nat.zero_le _⟩
    · rw [if_neg hval]
      by_cases hA :
          zero_rows_and_cols A (sink_source_pass A (w.getD (onesVec n))) = A
      · rw [dif_pos hA]
        have hvt : validate_vertices (sink_source_pass A (w.getD (onesVec n))) v
            = true := by
          simpa using hval
        refine ⟨?_, ?_, Or.inl hvt, fun i => sink_source_pass_le A _ i⟩
        · rw [hA]
          exact (sink_source_pass_idem A (w.getD (onesVec n))).symm
        · rw [hA]
          exact hA
      · rw [dif_neg hA]
        exact absurd
          (Nat.lt_of_lt_of_le
            (matSum_zero_rows_lt A (sink_source_pass A (w.getD (onesVec n))) hA) h)
          (Nat.not_lt_zero _)
  | succ f ih =>
    intro A w v h
    rw [vgssc_aux]
    by_cases hval :
        validate_vertices (sink_source_pass A (w.getD (onesVec n))) v = false
    · rw [if_pos hval]
      exact ⟨(sink_source_pass_zeros (zerosMat n)).symm,
        zero_rows_and_cols_zeros (zerosVec n), Or.inr rfl,
        fun i => Nat.zero_le _⟩
    · rw [if_neg hval]
      by_cases hA :
          zero_rows_and_cols A (sink_source_pass A (w.getD (onesVec n))) = A
      · rw [dif_pos hA]
        have hvt : validate_vertices (sink_source_pass A (w.getD (onesVec n))) v
            = true := by
          simpa using hval
        refine ⟨?_, ?_, Or.inl hvt, fun i => sink_source_pass_le A _ i⟩
        · rw [hA]
          exact (sink_source_pass_idem A (w.getD (onesVec n))).symm
        · rw [hA]
          exact hA
      · rw [dif_neg hA]
        obtain ⟨h1, h2, h3, h4⟩ := ih
          (zero_rows_and_cols A (sink_source_pass A (w.getD (onesVec n))))
          (some (sink_source_pass A (w.getD (onesVec n)))) v
          (Nat.lt_succ_iff.mp (Nat.lt_of_lt_of_le
            (matSum_zero_rows_lt A (sink_source_pass A (w.getD (onesVec n))) hA)
            h))
        exact ⟨h1, h2, h3,
          fun i => Nat.le_trans (h4 i) (sink_source_pass_le A _ i)⟩

/-- The characterization, transported to the source-level entry point. -/
theorem vgssc_char {n : Nat} (A : MatN n) (w : Option (VecN n))
    (v : Option (List (Fin n))) :
    (validate_graph_sink_source_condition A w v).2
        = sink_source_pass (validate_graph_sink_source_condition A w v).1
            (validate_graph_sink_source_condition A w v).2
    ∧ zero_rows_and_cols (validate_graph_sink_source_condition A w v).1
          (validate_graph_sink_source_condition A w v).2
        = (validate_graph_sink_source_condition A w v).1
    ∧ (validate_vertices (validate_graph_sink_source_condition A w v).2 v = true
        ∨ validate_graph_sink_source_condition A w v = (zerosMat n, zerosVec n))
    ∧ ∀ i, (validate_graph_sink_source_condition A w v).2 i
        ≤ (w.getD (onesVec n)) i :=
  vgssc_aux_char (matSum A) A w v (Nat.le_refl _)

theorem active_count_pass_le {n : Nat} (A : MatN n) (w : VecN n) :
    active_count (sink_source_pass A w) ≤ active_count w := by
  apply Finset.card_le_card
  intro i hi
  rw [Finset.mem_filter] at hi ⊢
  refine ⟨Finset.mem_univ i, fun hz => hi.2 ?_⟩
  have := sink_source_pass_le A w i
  omega

/-- Once a pass leaves the matrix unchanged, a further pass changes nothing
at all: the state is a full fixed point. -/
theorem reducer_pass_fix_step {n : Nat} (s : MatN n × VecN n)
    (hfix : (reducer_pass s).1 = s.1) :
    reducer_pass (reducer_pass s) = reducer_pass s := by
  simp only [reducer_pass] at hfix ⊢
  rw [hfix, sink_source_pass_idem, hfix]

/-- The pass iteration stabilizes within one more step than the total edge
count of the starting matrix: each non-final pass strictly shrinks the edge
count. -/
theorem reducer_pass_stabilizes {n : Nat} :
    ∀ (N : Nat) (s : MatN n × VecN n), matSum s.1 ≤ N →
      ∃ k, k ≤ N + 1 ∧ reducer_pass^[k + 1] s = reducer_pass^[k] s := by
  intro N
  induction N with
  | zero =>
    intro s h
    by_cases hfix : (reducer_pass s).1 = s.1
    · exact ⟨1, Nat.le_refl _, reducer_pass_fix_step s hfix⟩
    · exact absurd
        (Nat.lt_of_lt_of_le (matSum_zero_rows_lt s.1 (sink_source_pass s.1 s.2) hfix) h)
        (Nat.not_lt_zero _)
  | succ N ih =>
    intro s h
    by_cases hfix : (reducer_pass s).1 = s.1
    · exact ⟨1, by omega, reducer_pass_fix_step s hfix⟩
    · have hlt : matSum (reducer_pass s).1 < matSum s.1 :=
        matSum_zero_rows_lt s.1 (sink_source_pass s.1 s.2) hfix
      obtain ⟨k, hk, hstab⟩ := ih (reducer_pass s) (by omega)
      refine ⟨k + 1, by omega, ?_⟩
      rw [Function.iterate_succ_apply, Function.iterate_succ_apply]
      exact hstab


/-! ## Claims -/

/-- Claim C1.  The claim says the branching step of the Subgraph Enumerator
decrements the matrix entry at the chosen edge position by one multiplicity,
so that an entry of multiplicity m needs m removal steps.  The code instead
sets the entry to zero outright (graph_ops.py line 72), against its own
comment at lines 66-70: at the reduced matrix [[0,2],[2,0]] and edge
position (0,1) the child entry the code builds is 0, while the claimed child
entry is 1, so the two child matrices differ. -/
theorem c1_branch_zeroes_whole_entry :
    child_matrix (![![0,2],![2,0]] : MatN 2) 0 1
        ≠ child_matrix_claimed (![![0,2],![2,0]] : MatN 2) 0 1
    ∧ child_matrix (![![0,2],![2,0]] : MatN 2) 0 1 0 1 = 0
    ∧ child_matrix_claimed (![![0,2],![2,0]] : MatN 2) 0 1 0 1 = 1 := by
  decide

/-- Claim C2.  The claim says the Enumerator on the 2-vertex complete
digraph with defaulted arguments returns normally with at least one result.
The code instead raises a TypeError at graph_ops.py line 60: the memo key
(tuple(A), tuple(verts)) holds numpy array rows, which are unhashable, so
the dict membership test fails before anything is collected. -/
theorem c2_enumerator_raises_on_two_cycle :
    iterate_subgraphs (![![0,1],![1,0]] : MatN 2) none none none none
      = .error ("TypeError: unhashable type numpy.ndarray") := by
  decide

/-- Claim C3.  The claim says the Enumerator runs the Sink/Source Reducer on
the supplied (matrix, verts) pair, so a vertex marked inactive in a
caller-supplied ActiveVertices vector stays inactive and never appears among
retained indices.  The code at graph_ops.py line 57 instead calls the
reducer with the verts argument omitted: on the 2-cycle with supplied verts
[1, 0] the call the code makes keeps vertex 1 active and the Subgraph Pruner
retains the index list [0, 1], while the call the claim describes
deactivates vertex 1. -/
theorem c3_supplied_verts_dropped :
    (validate_graph_sink_source_condition (![![0,1],![1,0]] : MatN 2) none none).2 1
        = 1
    ∧ (prune_graph (![![0,1],![1,0]] : MatN 2)
        (validate_graph_sink_source_condition (![![0,1],![1,0]] : MatN 2)
          none none).2).2 = [0, 1]
    ∧ (validate_graph_sink_source_condition (![![0,1],![1,0]] : MatN 2)
        (some ![1,0]) none).2 1 = 0 := by
  decide

/-- Claim C4, counterexample.  The claim says the degrees in the pass
recomputation are weighted by the current ActiveVertices vector: on the
2-cycle with current vector [1, 0] the recomputation the code performs
yields [1, 0] while the claimed recomputation yields [0, 0]. -/
theorem c4_pass_counterexample :
    sink_source_pass (![![0,1],![1,0]] : MatN 2) ![1,0]
      ≠ sink_source_pass_claimed (![![0,1],![1,0]] : MatN 2) ![1,0] := by
  decide

/-- Claim C4, amended.  In each pass of the Sink/Source Reducer the new
ActiveVertices vector marks a vertex active exactly when it was active and
its in-degree and out-degree are nonzero, where both degrees are the
all-ones-weighted products of the Degree Calculator (plain row and column
sums), not products weighted by the current ActiveVertices vector. -/
theorem c4_pass_all_ones_weighting {n : Nat} (A : MatN n) (w : VecN n)
    (i : Fin n) :
    sink_source_pass A w i =
      if w i ≠ 0 ∧ Matrix.mulVec (Matrix.of A) (onesVec n) i ≠ 0
          ∧ Matrix.vecMul (onesVec n) (Matrix.of A) i ≠ 0 then 1 else 0 := by
  rw [sink_source_pass_eq_ite]
  rfl

/-- Claim C5.  The output of the Sink/Source Reducer is a fixed point: no
vertex active in the output vector has zero in-degree or zero out-degree in
the output matrix, and applying the Reducer to its own output with the same
required-vertices argument returns the same pair. -/
theorem c5_reducer_fixed_point_idem {n : Nat} (A : MatN n) (w : VecN n)
    (v : Option (List (Fin n))) :
    (∀ i, (validate_graph_sink_source_condition A (some w) v).2 i ≠ 0 →
        in_deg (validate_graph_sink_source_condition A (some w) v).1 none i ≠ 0
        ∧ out_deg (validate_graph_sink_source_condition A (some w) v).1 none i ≠ 0)
    ∧ validate_graph_sink_source_condition
        (validate_graph_sink_source_condition A (some w) v).1
        (some (validate_graph_sink_source_condition A (some w) v).2) v
      = validate_graph_sink_source_condition A (some w) v := by
  obtain ⟨h1, h2, h3, _⟩ := vgssc_char A (some w) v
  constructor
  · intro i hi
    have hp := congrFun h1 i
    rw [sink_source_pass_eq_ite] at hp
    by_cases hc : (validate_graph_sink_source_condition A (some w) v).2 i ≠ 0
        ∧ in_deg (validate_graph_sink_source_condition A (some w) v).1 none i ≠ 0
        ∧ out_deg (validate_graph_sink_source_condition A (some w) v).1 none i ≠ 0
    · exact hc.2
    · rw [if_neg hc] at hp
      exact absurd hp hi
  · show vgssc_aux (matSum (validate_graph_sink_source_condition A (some w) v).1)
        (validate_graph_sink_source_condition A (some w) v).1
        (some (validate_graph_sink_source_condition A (some w) v).2) v
        (Nat.le_refl _)
      = validate_graph_sink_source_condition A (some w) v
    rw [vgssc_aux]
    have hpass : sink_source_pass
        (validate_graph_sink_source_condition A (some w) v).1
        ((some (validate_graph_sink_source_condition A (some w) v).2).getD
          (onesVec n))
        = (validate_graph_sink_source_condition A (some w) v).2 := h1.symm
    split
    next hcond =>
      rw [hpass] at hcond
      rcases h3 with hval | hsent
      · rw [hval] at hcond
        exact absurd hcond (by simp)
      · exact hsent.symm
    next hcond =>
      split
      next hA =>
        rw [hpass, h2]
      next hA =>
        rw [hpass] at hA
        exact absurd h2 hA

/-- Witness for claim C5 at the 2-cycle with the all-ones vector: vertex 0
is active in the output, both its degrees in the output matrix are nonzero,
and reapplying the Reducer returns the same pair. -/
theorem c5_witness :
    (validate_graph_sink_source_condition (![![0,1],![1,0]] : MatN 2)
        (some (onesVec 2)) none).2 0 ≠ 0
    ∧ (in_deg (validate_graph_sink_source_condition (![![0,1],![1,0]] : MatN 2)
          (some (onesVec 2)) none).1 none 0 ≠ 0
      ∧ out_deg (validate_graph_sink_source_condition (![![0,1],![1,0]] : MatN 2)
          (some (onesVec 2)) none).1 none 0 ≠ 0)
    ∧ validate_graph_sink_source_condition
        (validate_graph_sink_source_condition (![![0,1],![1,0]] : MatN 2)
          (some (onesVec 2)) none).1
        (some (validate_graph_sink_source_condition (![![0,1],![1,0]] : MatN 2)
          (some (onesVec 2)) none).2) none
      = validate_graph_sink_source_condition (![![0,1],![1,0]] : MatN 2)
          (some (onesVec 2)) none :=
  ⟨by decide,
    (c5_reducer_fixed_point_idem (![![0,1],![1,0]] : MatN 2) (onesVec 2) none).1
      0 (by decide),
    (c5_reducer_fixed_point_idem (![![0,1],![1,0]] : MatN 2) (onesVec 2) none).2⟩

/-- Claim C6.  If some required vertex is inactive after the active-vertex
recomputation, the Reducer returns the all-zero sentinel state of the input
dimension immediately. -/
theorem c6_required_inactive_sentinel {n : Nat} (A : MatN n)
    (w : Option (VecN n)) (vs : List (Fin n)) (i : Fin n) (hmem : i ∈ vs)
    (hz : sink_source_pass A (w.getD (onesVec n)) i = 0) :
    validate_graph_sink_source_condition A w (some vs)
      = (zerosMat n, zerosVec n) := by
  show vgssc_aux (matSum A) A w (some vs) (Nat.le_refl _)
      = (zerosMat n, zerosVec n)
  rw [vgssc_aux]
  rw [if_pos ?hv]
  case hv =>
    have hany : vs.any
        (fun vert => sink_source_pass A (w.getD (onesVec n)) vert == 0) = true :=
      List.any_eq_true.mpr ⟨i, hmem, beq_iff_eq.mpr hz⟩
    simp [validate_vertices, hany]

/-- Witness for claim C6: on the matrix [[0,1],[0,0]] vertex 0 has zero
out-degree, so it is inactive after the recomputation; requiring vertex 0
yields the sentinel state. -/
theorem c6_witness :
    ((0 : Fin 2) ∈ [(0 : Fin 2)])
    ∧ sink_source_pass (![![0,1],![0,0]] : MatN 2)
        ((none : Option (VecN 2)).getD (onesVec 2)) 0 = 0
    ∧ validate_graph_sink_source_condition (![![0,1],![0,0]] : MatN 2) none
        (some [0]) = (zerosMat 2, zerosVec 2) :=
  ⟨by decide, by decide,
    c6_required_inactive_sentinel (![![0,1],![0,0]] : MatN 2) none [0] 0
      (by decide) (by decide)⟩

/-- Claim C7.  The Dimension/Type Validator fails exactly when the matrix is
not square or a supplied ActiveVertices vector does not have shape (n, 1)
for the matrix dimension n; on success with the vector omitted it returns
the matrix paired with the synthesized all-ones (n, 1) column vector. -/
theorem c7_dimen_type_val_shape (A : List (List Nat))
    (w : Option (List (List Nat))) :
    ((∃ e, dimen_type_val A w = .error e) ↔
      (pyshape A).1 ≠ (pyshape A).2
      ∨ ∃ vs, w = some vs ∧ pyshape vs ≠ ((pyshape A).1, 1))
    ∧ ((pyshape A).1 = (pyshape A).2 →
        dimen_type_val A none = .ok (A, List.replicate A.length [1])) := by
  constructor
  · constructor
    · rintro ⟨e, he⟩
      by_cases hsq : (pyshape A).1 = (pyshape A).2
      · right
        rcases w with _ | vs
        · rw [dimen_type_val_none A hsq] at he
          exact Except.noConfusion he
        · by_cases hvs : pyshape vs = ((pyshape A).1, 1)
          · rw [dimen_type_val_some A vs hsq, if_pos hvs] at he
            exact Except.noConfusion he
          · exact ⟨vs, rfl, hvs⟩
      · left
        exact hsq
    · rintro (hsq | ⟨vs, rfl, hvs⟩)
      · exact ⟨_, dimen_type_val_nonsquare A w hsq⟩
      · by_cases hsq : (pyshape A).1 = (pyshape A).2
        · exact ⟨_, by rw [dimen_type_val_some A vs hsq, if_neg hvs]⟩
        · exact ⟨_, dimen_type_val_nonsquare A (some vs) hsq⟩
  · intro hsq
    rw [dimen_type_val_none A hsq]
    rfl

/-- Witness for claim C7 at the square matrix [[0,1],[1,0]] with the vector
omitted: validation succeeds and synthesizes the all-ones column vector. -/
theorem c7_witness :
    (pyshape [[0,1],[1,0]]).1 = (pyshape [[0,1],[1,0]]).2
    ∧ dimen_type_val [[0,1],[1,0]] none
        = .ok ([[0,1],[1,0]], List.replicate 2 [1]) :=
  ⟨by decide, (c7_dimen_type_val_shape [[0,1],[1,0]] none).2 (by decide)⟩

/-- Claim C8.  For a validated matrix and a supplied ActiveVertices vector
the Degree Calculator returns the matrix-vector product for mode IN and the
transposed vector-matrix product for mode OUT (stated through the
independent Mathlib matrix operations), and any value outside the enum
fails with the invalid-mode error instead of returning a degree vector. -/
theorem c8_degree_calculator {n : Nat} (A : MatN n) (w : VecN n) :
    in_or_out_deg A (.mem .IN) (some w) = .ok (Matrix.mulVec (Matrix.of A) w)
    ∧ in_or_out_deg A (.mem .OUT) (some w) = .ok (Matrix.vecMul w (Matrix.of A))
    ∧ ∃ e, in_or_out_deg A .notMember (some w) = .error e := by
  refine ⟨?_, ?_, ?_⟩
  · rfl
  · rfl
  · exact ⟨_, rfl⟩

/-- Claim C9.  The fixed-point iteration of the Sink/Source Reducer
terminates on every well-shaped input: the active-vertex count never grows
from one pass to the next, the pass iteration stabilizes within one more
step than the total edge count, and the value the Reducer returns is itself
a fixed point of the pass. -/
theorem c9_reducer_terminates {n : Nat} (A : MatN n) (w : VecN n)
    (v : Option (List (Fin n))) :
    (∀ k, active_count ((reducer_pass^[k + 1] (A, w)).2)
        ≤ active_count ((reducer_pass^[k] (A, w)).2))
    ∧ (∃ k, k ≤ matSum A + 1
        ∧ reducer_pass^[k + 1] (A, w) = reducer_pass^[k] (A, w))
    ∧ reducer_pass (validate_graph_sink_source_condition A (some w) v)
        = validate_graph_sink_source_condition A (some w) v := by
  refine ⟨?_, reducer_pass_stabilizes (matSum A) (A, w) (Nat.le_refl _), ?_⟩
  · intro k
    rw [Function.iterate_succ_apply']
    exact active_count_pass_le _ _
  · obtain ⟨h1, h2, _, _⟩ := vgssc_char A (some w) v
    unfold reducer_pass
    rw [← h1, h2]

/-- Claim C10.  The output ActiveVertices vector of the Sink/Source Reducer
is pointwise at most the input vector: the Reducer only deactivates
vertices, also when it returns the all-zero sentinel state. -/
theorem c10_output_verts_le {n : Nat} (A : MatN n) (w : VecN n)
    (v : Option (List (Fin n))) (i : Fin n) :
    (validate_graph_sink_source_condition A (some w) v).2 i ≤ w i :=
  (vgssc_char A (some w) v).2.2.2 i


end Kinetic

